import Mathlib

/-!
Shallow embedding of the locator repository and self-healing resolution
protocol of the hybrid test-automation framework
(src/utils/common_methods.py and src/utils/openai_utils.py).

Python dictionaries are modelled as insertion-ordered association lists
(`Locators`), Python `None`-or-string values as `Option String`, and the
persistent object repository as a map from file name to the list of data
rows of the CSV file (the constant header row written by `_save_locators`
and consumed by `csv.DictReader` is left implicit).  A CSV data-row field
is `Option String`: `none` models a field that is absent from the row
(`csv.DictReader` fills it with Python `None`, on which `.strip()`
raises).
-/

namespace HybridFramework

/-- Python dict from element name to locator value (a locator value may be
Python `None`, hence `Option String`), kept in insertion order. -/
abbrev Locators := List (String × Option String)

/-- Dictionary lookup: first binding of the key, if any. -/
def dget : Locators → String → Option (Option String)
  | [], _ => none
  | (k', v') :: rest, k => if k' = k then some v' else dget rest k

/-- Python dict assignment `d[k] = v`: overwrite the existing binding in
place, else append a new binding at the end. -/
def dinsert : Locators → String → Option String → Locators
  | [], k, v => [(k, v)]
  | (k', v') :: rest, k, v =>
    if k' = k then (k', v) :: rest else (k', v') :: dinsert rest k v

/-- Python `d.update(other)`: assign every binding of `other`, in order. -/
def dupdate (m other : Locators) : Locators :=
  other.foldl (fun acc kv => dinsert acc kv.1 kv.2) m

/-- How `csv.writer` renders a Python value: `None` becomes the empty
field, a string is written as is. -/
def pyStr : Option String → String
  | none => ""
  | some s => s

/-- Python truthiness test `not locator` on a `None`-or-string value:
`None` and the empty string are falsy. -/
def pyFalsyStr : Option String → Bool
  | none => true
  | some s => s = ""

/-- Python `str.strip()`: drop whitespace from both ends. -/
def pstrip (s : String) : String :=
  ⟨((s.data.dropWhile Char.isWhitespace).reverse.dropWhile Char.isWhitespace).reverse⟩

/-- One CSV data row as seen through `csv.DictReader`: the two fields of
interest; `none` marks a field missing from the row (restval `None`). -/
abbrev Row := Option String × Option String

/-- The persistent object repository: file name to data rows; `none` means
the file does not exist (opening raises `FileNotFoundError`). -/
abbrev FS := String → Option (List Row)

/-- Overwrite one file of the repository. -/
def fsSet (fs : FS) (name : String) (rows : List Row) : FS :=
  fun n => if n = name then some rows else fs n

/-- The class-level mutable state of `CommonMethods`: the `_locators`
cache and the `_loaded_files` set (kept as a duplicate-free list). -/
structure CMState where
  locators : Locators
  loadedFiles : List String
deriving DecidableEq

/-- The row loop of `CommonMethods._load_csv`: strip both fields, keep the
row when both are non-empty.  A row with a missing field makes `.strip()`
raise `AttributeError` on `None`; the surrounding `except` then returns
the locators accumulated so far. -/
def loadCsvRows : List Row → Locators → Locators
  | [], acc => acc
  | (some k0, some v0) :: rest, acc =>
    let k := pstrip k0
    let v := pstrip v0
    if k ≠ "" ∧ v ≠ "" then loadCsvRows rest (dinsert acc k (some v))
    else loadCsvRows rest acc
  | _ :: _, acc => acc

/-- `CommonMethods._load_csv`: parse the file's rows; a missing file
(`FileNotFoundError`) yields the empty mapping. -/
def load_csv (fs : FS) (fileName : String) : Locators :=
  match fs fileName with
  | none => []
  | some rows => loadCsvRows rows []

/-- `CommonMethods.get_values_from_csv`: load the file into the cache on
first use and mark it loaded, then look the element up in the cache.
Returns the looked-up value, the new state, and whether a load of the
file happened on this call. -/
def get_values_from_csv (s : CMState) (fs : FS) (element fileName : String) :
    Option String × CMState × Bool :=
  let step : CMState × Bool :=
    if fileName ∈ s.loadedFiles then (s, false)
    else (⟨dupdate s.locators (load_csv fs fileName), s.loadedFiles ++ [fileName]⟩, true)
  let locator : Option String :=
    match dget step.1.locators element with
    | some v => v
    | none => none
  (locator, step.1, step.2)

/-- The rows `CommonMethods._save_locators` writes for a mapping (after
the fixed header row): one row per binding, `None` rendered as the empty
field by `csv.writer`. -/
def saveRows (m : Locators) : List Row :=
  m.map (fun kv => (some kv.1, some (pyStr kv.2)))

/-- `CommonMethods._save_locators`: overwrite the file with the mapping. -/
def save_locators (fs : FS) (locators : Locators) (fileName : String) : FS :=
  fsSet fs fileName (saveRows locators)

/-- `CommonMethods.update_locator`: reload the file fresh from storage
(this *replaces* the whole `_locators` cache), assign the new binding,
and persist.  The loaded-files set is not touched. -/
def update_locator (s : CMState) (fs : FS) (element : String)
    (locator : Option String) (fileName : String) : CMState × FS :=
  let locs := dinsert (load_csv fs fileName) element locator
  (⟨locs, s.loadedFiles⟩, save_locators fs locs fileName)

/-! ### openai_utils.py -/

/-- After a `"` was seen, the lazy body of the pattern `"(.*?)"`: collect
characters up to the next `"`; `.` does not match a newline, so a newline
(or the end of the text) before a closing `"` means no match starts at
this opening quote. -/
def takeTilQuote : List Char → Option (List Char)
  | [] => none
  | c :: rest =>
    if c = '"' then some []
    else if c = '\n' then none
    else (takeTilQuote rest).map (fun l => c :: l)

/-- `re.search` of the pattern `"(.*?)"`: try each position left to right
as the opening quote; the first position with a same-line closing quote
wins, and the nearest such closing quote delimits the group. -/
def scanQuoted : List Char → Option (List Char)
  | [] => none
  | c :: rest =>
    if c = '"' then
      match takeTilQuote rest with
      | some body => some body
      | none => scanQuoted rest
    else scanQuoted rest

/-- `OpenAIUtils._extract_xpath_from_response`: first double-quoted
substring of the response, if any. -/
def extract_xpath_from_response (response : String) : Option String :=
  (scanQuoted response.data).map (fun l => ⟨l⟩)

/-- Outcome of one `client.chat.completions.create` call: the call raises,
or returns a response whose first choice has the given content, or returns
a response with no choices. -/
inductive CallOutcome
  | raiseExc
  | choices (content : String)
  | noChoices
deriving DecidableEq

/-- The loop of `OpenAIUtils._call_openai_with_retries`, indexed by the
attempt number `i` and the remaining iterations.  Returns the result
(`Except.error` models the `RuntimeError` raised when the last attempt
fails), the number of create calls made, and the list of sleep durations
performed between attempts. -/
def callLoop (att : Nat → CallOutcome) : List Nat → Nat → Nat →
    Except Unit String × Nat × List Nat
  | sleeps, i, 0 => (Except.ok "No response generated after retries.", i, sleeps)
  | sleeps, i, Nat.succ rem =>
    match att i with
    | CallOutcome.choices c => (Except.ok (pstrip c), i + 1, sleeps)
    | CallOutcome.noChoices => (Except.ok "No response generated.", i + 1, sleeps)
    | CallOutcome.raiseExc =>
      if rem = 0 then (Except.error (), i + 1, sleeps)
      else callLoop att (sleeps ++ [2]) (i + 1) rem

/-- `OpenAIUtils._call_openai_with_retries` with its `max_retries`
argument. -/
def call_openai_with_retries (att : Nat → CallOutcome) (maxRetries : Nat) :
    Except Unit String × Nat × List Nat :=
  callLoop att [] 0 maxRetries

/-- `OpenAIUtils.generate_response_new`: call with `max_retries = 3`; the
`RuntimeError` raised after the last failed attempt is caught and turned
into `None`.  The service's behaviour is a function `att` from the prompt
and the attempt number to the call outcome. -/
def generate_response_new (att : String → Nat → CallOutcome) (prompt : String) :
    Option String × Nat × List Nat :=
  match call_openai_with_retries (att prompt) 3 with
  | (Except.ok s, n, sl) => (some s, n, sl)
  | (Except.error _, n, sl) => (none, n, sl)

/-- The live page as the resolver observes it: whether
`wait_for_selector` succeeds for a selector, what `is_visible` returns
for it (`Except.error` models the call raising), and the DOM text
`page.content()` yields. -/
structure PageModel where
  waitOk : String → Bool
  visible : String → Except Unit Bool
  content : String

/-- The external world of one `verify_and_get_locators_using_ai` call:
the live page and the language-model service. -/
structure AIWorld where
  page : PageModel
  attempts : String → Nat → CallOutcome

/-- Observable outcome of `verify_and_get_locators_using_ai`: the
returned value, the final cache state, the final repository, whether
`wait_for_selector` was attempted, how many language-model create calls
were made, and whether `update_locator` ran. -/
structure VerifyResult where
  result : Option String
  state : CMState
  fs : FS
  probed : Bool
  lmAttempts : Nat
  wrote : Bool

/-- The prompt `verify_and_get_locators_using_ai` builds from the failing
locator and the DOM content. -/
def buildPrompt (locator dom : String) : String :=
  "As a seasoned QA Analyst, your mission is to analyze the DOM (Document Object Model) " ++
  "of a web application and recommend the most appropriate locator for " ++ locator ++
  " to identify and interact with specific elements. Your goal is to provide a robust " ++
  "and reliable set of locator that will ensure the stability and maintainability " ++
  "of your test automation framework. : " ++ dom ++
  " And Do not provide any extra description and By.Locatorname as well, " ++
  "just return result as locator = <correct_locator>"

/-- The repair path of `verify_and_get_locators_using_ai` (the body of
the `except` clause of the probe): build the prompt, call the language
model, and if the response is truthy extract the first quoted substring,
persist it via `update_locator` and return it — even when extraction
yielded `None`.  A falsy response falls through to `return None`. -/
def healLocator (w : AIWorld) (s : CMState) (fs : FS)
    (element fileName locator : String) : VerifyResult :=
  let prompt := buildPrompt locator w.page.content
  let g := generate_response_new w.attempts prompt
  match g.1 with
  | none => ⟨none, s, fs, true, g.2.1, false⟩
  | some resp =>
    if resp = "" then ⟨none, s, fs, true, g.2.1, false⟩
    else
      let corrected := extract_xpath_from_response resp
      let u := update_locator s fs element corrected fileName
      ⟨corrected, u.1, u.2, true, g.2.1, true⟩

/-- `OpenAIUtils.verify_and_get_locators_using_ai`: resolve the element's
selector; a falsy selector returns `None` with no probe.  Otherwise probe
the live page: wait for the selector and check visibility; a visible
selector is returned unchanged; an invisible-but-present selector falls
through to `return None`; a wait failure or a raising visibility check
enters the repair path. -/
def verify_and_get_locators_using_ai (w : AIWorld) (s : CMState) (fs : FS)
    (element fileName : String) : VerifyResult :=
  let r := get_values_from_csv s fs element fileName
  let locOpt := r.1
  let s1 := r.2.1
  if pyFalsyStr locOpt then
    ⟨none, s1, fs, false, 0, false⟩
  else
    let locator := pyStr locOpt
    if w.page.waitOk locator then
      match w.page.visible locator with
      | Except.ok true => ⟨some locator, s1, fs, true, 0, false⟩
      | Except.ok false => ⟨none, s1, fs, true, 0, false⟩
      | Except.error _ => healLocator w s1 fs element fileName locator
    else
      healLocator w s1 fs element fileName locator

/-! ### Concrete instances used by counterexamples and witnesses -/

/-- A single quote character, for building selectors that contain one. -/
def squote : String := ⟨[Char.ofNat 39]⟩

/-- The selector of claim C4. -/
def loginLocator : String := "//div[@id=" ++ squote ++ "login" ++ squote ++ "]"

/-- The language-model response text of claim C4. -/
def c4response : String := "Use locator = " ++ "\"" ++ loginLocator ++ "\""

/-! ### Helper notions -/

/-- The keys of a cache, in order. -/
def dkeys (m : Locators) : List String := m.map Prod.fst

/-- A cache has pairwise distinct keys. -/
def NodupKeys (m : Locators) : Prop := (dkeys m).Nodup

/-- An entry as produced by a CSV load or a well-formed update: non-empty
whitespace-trimmed key, and a present, non-empty, whitespace-trimmed
selector value. -/
def GoodEntry (kv : String × Option String) : Prop :=
  kv.1 ≠ "" ∧ pstrip kv.1 = kv.1 ∧ ∃ v, kv.2 = some v ∧ v ≠ "" ∧ pstrip v = v

/-- Number of occurrences of a file name in a list of load events. -/
def countFile (f : String) : List String → Nat
  | [] => 0
  | x :: xs => (if x = f then 1 else 0) + countFile f xs

/-- Run a sequence of `get_values_from_csv` calls against a fixed
repository, collecting the file names of the loads that actually hit
persistent storage. -/
def runResolves (fs : FS) : CMState → List (String × String) → CMState × List String
  | s, [] => (s, [])
  | s, q :: qs =>
    let r := get_values_from_csv s fs q.1 q.2
    let rest := runResolves fs r.2.1 qs
    (rest.1, (if r.2.2 then [q.2] else []) ++ rest.2)

/-- A row whose two fields are both present (parsing does not abort). -/
def rowPresent : Row → Bool
  | (some _, some _) => true
  | _ => false

/-- The binding a present row contributes after trimming, if both fields
are non-empty. -/
def parseRow : Row → Option (String × Option String)
  | (some k0, some v0) =>
    if pstrip k0 ≠ "" ∧ pstrip v0 ≠ "" then some (pstrip k0, some (pstrip v0)) else none
  | _ => none

end HybridFramework

namespace HybridFramework

/-! ### Dictionary lemmas -/

theorem dget_dinsert_self (m : Locators) (k : String) (v : Option String) :
    dget (dinsert m k v) k = some v := by
  induction m with
  | nil => simp [dinsert, dget]
  | cons kv rest ih =>
    obtain ⟨a, b⟩ := kv
    by_cases h : a = k
    · simp [dinsert, dget, h]
    · simp [dinsert, dget, h, ih]

theorem dget_dinsert_ne (m : Locators) (k k' : String) (v : Option String)
    (h : k ≠ k') : dget (dinsert m k' v) k = dget m k := by
  induction m with
  | nil => simp [dinsert, dget, Ne.symm h]
  | cons kv rest ih =>
    obtain ⟨a, b⟩ := kv
    by_cases hak : a = k'
    · subst hak
      simp [dinsert, dget, Ne.symm h]
    · by_cases hk : a = k
      · simp [dinsert, dget, hak, hk, h]
      · simp [dinsert, dget, hak, hk, ih]

theorem mem_dinsert (m : Locators) (k : String) (v : Option String)
    (kv : String × Option String) (h : kv ∈ dinsert m k v) :
    kv ∈ m ∨ kv = (k, v) := by
  induction m with
  | nil => simp [dinsert] at h; simp [h]
  | cons ab rest ih =>
    obtain ⟨a, b⟩ := ab
    by_cases hak : a = k
    · subst hak
      simp [dinsert] at h
      rcases h with h | h
      · right; simp [h]
      · left; simp [h]
    · simp [dinsert, hak] at h
      rcases h with h | h
      · left; simp [h]
      · rcases ih h with h' | h'
        · left; simp [h']
        · right; exact h'

theorem dinsert_of_dget_none (m : Locators) (k : String) (v : Option String)
    (h : dget m k = none) : dinsert m k v = m ++ [(k, v)] := by
  induction m with
  | nil => simp [dinsert]
  | cons ab rest ih =>
    obtain ⟨a, b⟩ := ab
    by_cases hak : a = k
    · simp [dget, hak] at h
    · simp [dget, hak] at h
      simp [dinsert, hak, ih h]

theorem dget_append_right (m1 m2 : Locators) (k : String)
    (h : dget m1 k = none) : dget (m1 ++ m2) k = dget m2 k := by
  induction m1 with
  | nil => simp
  | cons ab rest ih =>
    obtain ⟨a, b⟩ := ab
    by_cases hak : a = k
    · simp [dget, hak] at h
    · simp [dget, hak] at h ⊢
      exact ih h

theorem dget_none_iff (m : Locators) (k : String) :
    dget m k = none ↔ k ∉ dkeys m := by
  induction m with
  | nil => simp [dget, dkeys]
  | cons ab rest ih =>
    obtain ⟨a, b⟩ := ab
    by_cases hak : a = k
    · simp [dget, dkeys, hak]
    · have hka : k ≠ a := Ne.symm hak
      simp [dget, dkeys, hak, hka, ih]

theorem dkeys_dinsert (m : Locators) (k : String) (v : Option String) :
    dkeys (dinsert m k v) = if k ∈ dkeys m then dkeys m else dkeys m ++ [k] := by
  induction m with
  | nil => simp [dinsert, dkeys]
  | cons ab rest ih =>
    obtain ⟨a, b⟩ := ab
    by_cases hak : a = k
    · simp [dinsert, dkeys, hak]
    · have hka : k ≠ a := Ne.symm hak
      simp only [dkeys] at ih
      by_cases hm : k ∈ List.map Prod.fst rest
      · simp [dinsert, dkeys, hak, hka, hm, ih]
      · simp [dinsert, dkeys, hak, hka, hm, ih]

theorem nodup_dinsert (m : Locators) (k : String) (v : Option String)
    (h : NodupKeys m) : NodupKeys (dinsert m k v) := by
  unfold NodupKeys at h ⊢
  rw [dkeys_dinsert]
  by_cases hm : k ∈ dkeys m
  · simpa [hm] using h
  · simp [hm, List.nodup_append, h]

theorem dupdate_cons (m : Locators) (kv : String × Option String) (rest : Locators) :
    dupdate m (kv :: rest) = dupdate (dinsert m kv.1 kv.2) rest := rfl

theorem dget_dupdate_isSome (other m : Locators) (k : String)
    (h : (dget m k).isSome = true) : (dget (dupdate m other) k).isSome = true := by
  induction other generalizing m with
  | nil => exact h
  | cons ab rest ih =>
    rw [dupdate_cons]
    apply ih
    by_cases hk : k = ab.1
    · rw [hk, dget_dinsert_self]; rfl
    · rw [dget_dinsert_ne _ _ _ _ hk]; exact h

theorem dupdate_eq_append (m acc : Locators) (hm : NodupKeys m)
    (hdis : ∀ k' ∈ dkeys m, dget acc k' = none) : dupdate acc m = acc ++ m := by
  induction m generalizing acc with
  | nil => simp [dupdate]
  | cons ab rest ih =>
    obtain ⟨a, b⟩ := ab
    rw [dupdate_cons]
    have hdga : dget acc a = none := hdis a (by simp [dkeys])
    rw [dinsert_of_dget_none acc a b hdga]
    have hnr : NodupKeys rest := by
      unfold NodupKeys at hm ⊢
      simp [dkeys] at hm
      exact hm.2
    have hanr : a ∉ dkeys rest := by
      unfold NodupKeys at hm
      simp [dkeys] at hm ⊢
      exact hm.1
    have hdis' : ∀ k' ∈ dkeys rest, dget (acc ++ [(a, b)]) k' = none := by
      intro k' hk'
      have h1 : dget acc k' = none := hdis k' (by simp [dkeys] at hk' ⊢; exact Or.inr hk')
      rw [dget_append_right _ _ _ h1]
      have : a ≠ k' := fun hh => hanr (hh ▸ hk')
      simp [dget, this]
    rw [ih (acc ++ [(a, b)]) hnr hdis']
    simp [dkeys]

theorem dupdate_nil_left (m : Locators) (hm : NodupKeys m) : dupdate [] m = m := by
  rw [dupdate_eq_append m [] hm (fun k' _ => rfl)]
  simp

end HybridFramework

namespace HybridFramework

/-! ### Whitespace stripping lemmas -/

theorem dropWhile_eq_self_of_prefix {α : Type} (p : α → Bool) (x y : List α)
    (hx : x.dropWhile p = x) (hp : y <+: x) : y.dropWhile p = y := by
  cases y with
  | nil => simp
  | cons a y' =>
    obtain ⟨r, hr⟩ := hp
    have hpa : p a = false := by
      by_contra hcon
      have hpa' : p a = true := by
        cases hpab : p a
        · exact absurd hpab hcon
        · rfl
      rw [← hr] at hx
      rw [List.cons_append, List.dropWhile_cons, if_pos hpa'] at hx
      have hlen := congrArg List.length hx
      rw [List.length_cons] at hlen
      have hle := (List.dropWhile_suffix (l := y' ++ r) p).length_le
      omega
    rw [List.dropWhile_cons, if_neg (by simp [hpa])]

theorem pstrip_pstrip (s : String) : pstrip (pstrip s) = pstrip s := by
  apply congrArg String.mk
  set A := s.data.dropWhile Char.isWhitespace with hA
  set Brev := A.reverse.dropWhile Char.isWhitespace with hBrev
  have hAfix : A.dropWhile Char.isWhitespace = A := by
    rw [hA]; exact List.dropWhile_idempotent _ _
  have hBpre : Brev.reverse <+: A := by
    rw [← A.reverse_reverse, List.reverse_prefix, hBrev]
    exact List.dropWhile_suffix _
  have hBfix : Brev.reverse.dropWhile Char.isWhitespace = Brev.reverse :=
    dropWhile_eq_self_of_prefix _ A Brev.reverse hAfix hBpre
  have hBB : Brev.dropWhile Char.isWhitespace = Brev := by
    rw [hBrev]; exact List.dropWhile_idempotent _ _
  show ((Brev.reverse.dropWhile Char.isWhitespace).reverse.dropWhile
      Char.isWhitespace).reverse = Brev.reverse
  rw [hBfix, List.reverse_reverse, hBB]

/-! ### CSV load/save lemmas -/

theorem good_dinsert (acc : Locators) (k : String) (v : Option String)
    (hacc : ∀ kv ∈ acc, GoodEntry kv) (hk : GoodEntry (k, v)) :
    ∀ kv ∈ dinsert acc k v, GoodEntry kv := by
  intro kv hkv
  rcases mem_dinsert acc k v kv hkv with h | h
  · exact hacc kv h
  · rw [h]; exact hk

theorem good_loadCsvRows (rows : List Row) (acc : Locators)
    (hacc : ∀ kv ∈ acc, GoodEntry kv) :
    ∀ kv ∈ loadCsvRows rows acc, GoodEntry kv := by
  induction rows generalizing acc with
  | nil => simpa [loadCsvRows] using hacc
  | cons row rest ih =>
    obtain ⟨kf, vf⟩ := row
    cases kf with
    | none => simpa [loadCsvRows] using hacc
    | some k0 =>
      cases vf with
      | none => simpa [loadCsvRows] using hacc
      | some v0 =>
        by_cases hc : pstrip k0 ≠ "" ∧ pstrip v0 ≠ ""
        · rw [loadCsvRows, if_pos hc]
          apply ih
          apply good_dinsert acc _ _ hacc
          exact ⟨hc.1, pstrip_pstrip k0, pstrip v0, rfl, hc.2, pstrip_pstrip v0⟩
        · rw [loadCsvRows, if_neg hc]
          exact ih acc hacc

theorem good_load_csv (fs : FS) (fileName : String) :
    ∀ kv ∈ load_csv fs fileName, GoodEntry kv := by
  unfold load_csv
  cases fs fileName with
  | none => simp
  | some rows => exact good_loadCsvRows rows [] (by simp)

theorem nodup_loadCsvRows (rows : List Row) (acc : Locators)
    (hacc : NodupKeys acc) : NodupKeys (loadCsvRows rows acc) := by
  induction rows generalizing acc with
  | nil => simpa [loadCsvRows] using hacc
  | cons row rest ih =>
    obtain ⟨kf, vf⟩ := row
    cases kf with
    | none => simpa [loadCsvRows] using hacc
    | some k0 =>
      cases vf with
      | none => simpa [loadCsvRows] using hacc
      | some v0 =>
        by_cases hc : pstrip k0 ≠ "" ∧ pstrip v0 ≠ ""
        · rw [loadCsvRows, if_pos hc]
          exact ih _ (nodup_dinsert acc _ _ hacc)
        · rw [loadCsvRows, if_neg hc]
          exact ih acc hacc

theorem nodup_load_csv (fs : FS) (fileName : String) :
    NodupKeys (load_csv fs fileName) := by
  unfold load_csv
  cases fs fileName with
  | none => simp [NodupKeys, dkeys]
  | some rows => exact nodup_loadCsvRows rows [] (by simp [NodupKeys, dkeys])

theorem loadCsvRows_saveRows (m : Locators) (hm : ∀ kv ∈ m, GoodEntry kv) :
    ∀ acc, loadCsvRows (saveRows m) acc = dupdate acc m := by
  induction m with
  | nil => intro acc; simp [saveRows, loadCsvRows, dupdate]
  | cons kv m' ih =>
    intro acc
    obtain ⟨k, vo⟩ := kv
    obtain ⟨hk1, hk2, v, hv, hv1, hv2⟩ := hm (k, vo) (by simp)
    simp only at hv
    subst hv
    have hrow : saveRows ((k, some v) :: m') = (some k, some v) :: saveRows m' := by
      simp [saveRows, pyStr]
    rw [hrow, loadCsvRows]
    simp only at hk2 hv2
    rw [hk2, hv2, if_pos ⟨hk1, hv1⟩]
    rw [ih (fun kv hkv => hm kv (by simp [hkv])) (dinsert acc k (some v))]
    rfl

end HybridFramework

namespace HybridFramework

/-! ### Resolver-level lemmas -/

theorem countFile_append (f : String) (l1 l2 : List String) :
    countFile f (l1 ++ l2) = countFile f l1 + countFile f l2 := by
  induction l1 with
  | nil => simp [countFile]
  | cons x xs ih => simp [countFile, ih]; omega

theorem gv_loadedFiles (s : CMState) (fs : FS) (element fileName : String) :
    ((get_values_from_csv s fs element fileName).2.1).loadedFiles
      = if fileName ∈ s.loadedFiles then s.loadedFiles else s.loadedFiles ++ [fileName] := by
  unfold get_values_from_csv
  by_cases hmem : fileName ∈ s.loadedFiles <;> simp [hmem]

theorem gv_didLoad (s : CMState) (fs : FS) (element fileName : String) :
    ((get_values_from_csv s fs element fileName).2.2)
      = if fileName ∈ s.loadedFiles then false else true := by
  unfold get_values_from_csv
  by_cases hmem : fileName ∈ s.loadedFiles <;> simp [hmem]

theorem runResolves_count_zero (fs : FS) (qs : List (String × String)) :
    ∀ s f, f ∈ s.loadedFiles → countFile f (runResolves fs s qs).2 = 0 := by
  induction qs with
  | nil => intro s f _; simp [runResolves, countFile]
  | cons q qs ih =>
    intro s f h
    unfold runResolves
    by_cases hmem : q.2 ∈ s.loadedFiles
    · have hstate : (get_values_from_csv s fs q.1 q.2).2.1 = s := by
        unfold get_values_from_csv; simp [hmem]
      simp only [gv_didLoad, hmem, if_pos, if_true, hstate]
      simpa [countFile] using ih s f h
    · have hne : q.2 ≠ f := fun hh => hmem (hh ▸ h)
      have hstate : ((get_values_from_csv s fs q.1 q.2).2.1).loadedFiles
          = s.loadedFiles ++ [q.2] := by
        rw [gv_loadedFiles, if_neg hmem]
      have hrec := ih (get_values_from_csv s fs q.1 q.2).2.1 f (by simp [hstate, h])
      simp only [gv_didLoad, hmem, if_neg, if_false, if_true]
      simp [countFile_append, countFile, hne, hrec]

theorem runResolves_count_le_one (fs : FS) (qs : List (String × String)) :
    ∀ s f, countFile f (runResolves fs s qs).2 ≤ 1 := by
  induction qs with
  | nil => intro s f; simp [runResolves, countFile]
  | cons q qs ih =>
    intro s f
    unfold runResolves
    by_cases hmem : q.2 ∈ s.loadedFiles
    · simp only [gv_didLoad, hmem, if_true]
      simpa [countFile] using ih (get_values_from_csv s fs q.1 q.2).2.1 f
    · simp only [gv_didLoad, hmem, if_false]
      by_cases hqf : q.2 = f
      · subst hqf
        have hmemf : q.2 ∈ ((get_values_from_csv s fs q.1 q.2).2.1).loadedFiles := by
          rw [gv_loadedFiles, if_neg hmem]
          simp
        have hz := runResolves_count_zero fs qs _ q.2 hmemf
        simp [countFile_append, countFile, hz]
      · simpa [countFile_append, countFile, hqf] using
          ih (get_values_from_csv s fs q.1 q.2).2.1 f

theorem runResolves_count_eq_one (fs : FS) (qs : List (String × String)) :
    ∀ s f, f ∉ s.loadedFiles → (∃ e, (e, f) ∈ qs) →
      countFile f (runResolves fs s qs).2 = 1 := by
  induction qs with
  | nil =>
    intro s f _ hin
    obtain ⟨e, he⟩ := hin
    simp at he
  | cons q qs ih =>
    intro s f hf hin
    unfold runResolves
    by_cases hmem : q.2 ∈ s.loadedFiles
    · have hstate : (get_values_from_csv s fs q.1 q.2).2.1 = s := by
        unfold get_values_from_csv; simp [hmem]
      have hqf : q.2 ≠ f := fun hh => hf (hh ▸ hmem)
      obtain ⟨e, he⟩ := hin
      rcases List.mem_cons.mp he with he' | he'
      · exact absurd (congrArg Prod.snd he'.symm) hqf
      · simp only [gv_didLoad, hmem, if_true, hstate]
        simpa [countFile] using ih s f hf ⟨e, he'⟩
    · simp only [gv_didLoad, hmem, if_false]
      by_cases hqf : q.2 = f
      · subst hqf
        have hmemf : q.2 ∈ ((get_values_from_csv s fs q.1 q.2).2.1).loadedFiles := by
          rw [gv_loadedFiles, if_neg hmem]
          simp
        have hz := runResolves_count_zero fs qs _ q.2 hmemf
        simp [countFile_append, countFile, hz]
      · have hstate : ((get_values_from_csv s fs q.1 q.2).2.1).loadedFiles
            = s.loadedFiles ++ [q.2] := by
          rw [gv_loadedFiles, if_neg hmem]
        have hf' : f ∉ ((get_values_from_csv s fs q.1 q.2).2.1).loadedFiles := by
          simp [hstate, hf, Ne.symm hqf]
        obtain ⟨e, he⟩ := hin
        rcases List.mem_cons.mp he with he' | he'
        · exact absurd (congrArg Prod.snd he'.symm) hqf
        · simpa [countFile_append, countFile, hqf] using
            ih (get_values_from_csv s fs q.1 q.2).2.1 f hf' ⟨e, he'⟩

theorem loadCsvRows_characterization (rows : List Row) :
    ∀ acc, loadCsvRows rows acc
      = dupdate acc ((rows.takeWhile rowPresent).filterMap parseRow) := by
  induction rows with
  | nil => intro acc; simp [loadCsvRows, dupdate]
  | cons row rest ih =>
    intro acc
    obtain ⟨kf, vf⟩ := row
    cases kf with
    | none => simp [loadCsvRows, rowPresent, List.takeWhile_cons, dupdate]
    | some k0 =>
      cases vf with
      | none => simp [loadCsvRows, rowPresent, List.takeWhile_cons, dupdate]
      | some v0 =>
        by_cases hc : pstrip k0 ≠ "" ∧ pstrip v0 ≠ ""
        · rw [loadCsvRows, if_pos hc]
          rw [ih (dinsert acc (pstrip k0) (some (pstrip v0)))]
          simp [rowPresent, parseRow, List.takeWhile_cons, hc, dupdate]
        · rw [loadCsvRows, if_neg hc]
          rw [ih acc]
          simp [rowPresent, parseRow, List.takeWhile_cons, hc, dupdate]

end HybridFramework

namespace HybridFramework

/-! ### Retry-loop lemmas -/

theorem callLoop_attempts_le (att : Nat → CallOutcome) :
    ∀ r sleeps i, (callLoop att sleeps i r).2.1 ≤ i + r := by
  intro r
  induction r with
  | zero => intro sleeps i; simp [callLoop]
  | succ rem ih =>
    intro sleeps i
    cases hatt : att i with
    | choices c => simp [callLoop, hatt]
    | noChoices => simp [callLoop, hatt]
    | raiseExc =>
      by_cases hr : rem = 0
      · simp [callLoop, hatt, hr]
      · have := ih (sleeps ++ [2]) (i + 1)
        simp [callLoop, hatt, hr]
        omega

theorem callLoop_sleeps_two (att : Nat → CallOutcome) :
    ∀ r sleeps i, (∀ d ∈ sleeps, d = 2) →
      ∀ d ∈ (callLoop att sleeps i r).2.2, d = 2 := by
  intro r
  induction r with
  | zero => intro sleeps i h; simpa [callLoop] using h
  | succ rem ih =>
    intro sleeps i h
    cases hatt : att i with
    | choices c => simpa [callLoop, hatt] using h
    | noChoices => simpa [callLoop, hatt] using h
    | raiseExc =>
      by_cases hr : rem = 0
      · simpa [callLoop, hatt, hr] using h
      · simp only [callLoop, hatt, hr, if_false]
        apply ih (sleeps ++ [2]) (i + 1)
        intro d hd
        rcases List.mem_append.mp hd with hd | hd
        · exact h d hd
        · simpa using hd

theorem callLoop_raise_all (att : Nat → CallOutcome) (h : ∀ i, att i = CallOutcome.raiseExc) :
    ∀ r sleeps i, r ≠ 0 →
      callLoop att sleeps i r = (Except.error (), i + r, sleeps ++ List.replicate (r - 1) 2) := by
  intro r
  induction r with
  | zero => intro sleeps i h0; exact absurd rfl h0
  | succ rem ih =>
    intro sleeps i _
    by_cases hr : rem = 0
    · subst hr
      simp [callLoop, h i]
    · rw [callLoop]
      rw [h i]
      simp only [hr, if_false]
      rw [ih (sleeps ++ [2]) (i + 1) hr]
      have harith : i + 1 + rem = i + (rem + 1) := by omega
      have hrep : (2 : Nat) :: List.replicate (rem - 1) 2 = List.replicate rem 2 := by
        have hrem : rem - 1 + 1 = rem := Nat.succ_pred_eq_of_pos (Nat.pos_of_ne_zero hr)
        rw [← hrem, List.replicate_succ]
        simp
      simp [harith, List.append_assoc, hrep]

theorem generate_response_new_snd (att : String → Nat → CallOutcome) (prompt : String) :
    (generate_response_new att prompt).2 = (call_openai_with_retries (att prompt) 3).2 := by
  unfold generate_response_new
  rcases h : call_openai_with_retries (att prompt) 3 with ⟨e, n, sl⟩
  cases e <;> simp

theorem generate_response_new_raise_all (att : String → Nat → CallOutcome) (prompt : String)
    (h : ∀ i, att prompt i = CallOutcome.raiseExc) :
    generate_response_new att prompt = (none, 3, [2, 2]) := by
  unfold generate_response_new call_openai_with_retries
  rw [callLoop_raise_all (att prompt) h 3 [] 0 (by omega)]
  rfl

end HybridFramework

namespace HybridFramework

/-! ### Claim theorems -/

/-- Claim C2, counterexample: the cache `⟨[("a", some "x")], ["f1.csv"]⟩`
holds the pair `("a", "x")`; after the single operation
`update_locator "b" "y" "f2.csv"` (with `f2.csv` absent from storage) the
pair is gone from the cache although the caller never invalidated it. -/
theorem C2_counterexample :
    dget (CMState.mk [("a", some "x")] ["f1.csv"]).locators "a" = some (some "x") ∧
    dget ((update_locator (CMState.mk [("a", some "x")] ["f1.csv"])
        (fun _ => none) "b" (some "y") "f2.csv").1).locators "a" = none := by
  constructor <;> decide

/-- Claim C2, amended: `get_values_from_csv` never drops a cache key (it
only merges loaded entries in), but `update_locator` replaces the whole
cache with the freshly loaded contents of the target file plus the
updated pair, so entries that came from other files are lost. -/
theorem C2_amended_cache :
    (∀ (s : CMState) (fs : FS) (element fileName k : String),
      (dget s.locators k).isSome = true →
      (dget ((get_values_from_csv s fs element fileName).2.1).locators k).isSome = true) ∧
    (∀ (s : CMState) (fs : FS) (element : String) (locator : Option String)
        (fileName : String),
      ((update_locator s fs element locator fileName).1).locators
        = dinsert (load_csv fs fileName) element locator) := by
  constructor
  · intro s fs element fileName k h
    unfold get_values_from_csv
    by_cases hmem : fileName ∈ s.loadedFiles
    · simpa [hmem] using h
    · simp only [hmem, if_false]
      exact dget_dupdate_isSome _ _ _ h
  · intro s fs element locator fileName
    rfl

/-- Claim C2, witness for the amended theorem at a concrete cache. -/
theorem C2_amended_cache_witness :
    (dget (CMState.mk [("a", some "x")] []).locators "a").isSome = true ∧
    (dget ((get_values_from_csv (CMState.mk [("a", some "x")] [])
        (fun _ => none) "b" "f.csv").2.1).locators "a").isSome = true :=
  ⟨by decide, C2_amended_cache.1 (CMState.mk [("a", some "x")] [])
    (fun _ => none) "b" "f.csv" "a" (by decide)⟩

/-- Claim C3: a pair persisted with `update_locator` whose key and
selector are non-empty and free of leading/trailing whitespace is
returned exactly by `get_values_from_csv` run against the persisted
repository from a fresh (invalidated) cache. -/
theorem C3_round_trip (s : CMState) (fs : FS) (key sel fileName : String)
    (hk1 : key ≠ "") (hk2 : pstrip key = key)
    (hs1 : sel ≠ "") (hs2 : pstrip sel = sel) :
    (get_values_from_csv (CMState.mk [] [])
      (update_locator s fs key (some sel) fileName).2 key fileName).1 = some sel := by
  have hgood : ∀ kv ∈ dinsert (load_csv fs fileName) key (some sel), GoodEntry kv := by
    apply good_dinsert _ _ _ (good_load_csv fs fileName)
    exact ⟨hk1, hk2, sel, rfl, hs1, hs2⟩
  have hnodup : NodupKeys (dinsert (load_csv fs fileName) key (some sel)) :=
    nodup_dinsert _ _ _ (nodup_load_csv fs fileName)
  have hfile : (update_locator s fs key (some sel) fileName).2 fileName
      = some (saveRows (dinsert (load_csv fs fileName) key (some sel))) := by
    show fsSet fs fileName (saveRows (dinsert (load_csv fs fileName) key (some sel)))
      fileName = _
    unfold fsSet
    simp
  have hload : load_csv (update_locator s fs key (some sel) fileName).2 fileName
      = dinsert (load_csv fs fileName) key (some sel) := by
    unfold load_csv
    rw [hfile]
    show loadCsvRows (saveRows (dinsert (load_csv fs fileName) key (some sel))) [] = _
    rw [loadCsvRows_saveRows _ hgood]
    exact dupdate_nil_left _ hnodup
  unfold get_values_from_csv
  simp only [List.not_mem_nil, if_false]
  rw [hload]
  rw [dupdate_nil_left _ hnodup]
  rw [dget_dinsert_self]

/-- Claim C3, witness at a concrete pair and repository. -/
theorem C3_round_trip_witness :
    ("txtUsername" : String) ≠ "" ∧ pstrip "txtUsername" = "txtUsername" ∧
    ("#user" : String) ≠ "" ∧ pstrip "#user" = "#user" ∧
    (get_values_from_csv (CMState.mk [] [])
      (update_locator (CMState.mk [] []) (fun _ => none) "txtUsername" (some "#user")
        "Login_Elements.csv").2 "txtUsername" "Login_Elements.csv").1 = some "#user" :=
  ⟨by decide, by decide, by decide, by decide,
    C3_round_trip (CMState.mk [] []) (fun _ => none) "txtUsername" "#user"
      "Login_Elements.csv" (by decide) (by decide) (by decide) (by decide)⟩

/-- Claim C5: within one cache lifetime, any sequence of
`get_values_from_csv` calls loads a given source file at most once; and a
file not yet loaded is loaded exactly once as soon as some call resolves
a key against it. -/
theorem C5_load_once (fs : FS) (s : CMState) (qs : List (String × String)) (f : String) :
    countFile f (runResolves fs s qs).2 ≤ 1 ∧
    (f ∉ s.loadedFiles → ∀ e, (e, f) ∈ qs → countFile f (runResolves fs s qs).2 = 1) := by
  constructor
  · exact runResolves_count_le_one fs qs s f
  · intro hf e hin
    exact runResolves_count_eq_one fs qs s f hf ⟨e, hin⟩

/-- Claim C5, witness: two resolves against the same never-loaded file
trigger exactly one load. -/
theorem C5_load_once_witness :
    ("Login_Elements.csv" : String) ∉ (CMState.mk [] []).loadedFiles ∧
    ("txtUsername", "Login_Elements.csv") ∈
      [("txtUsername", "Login_Elements.csv"), ("btnLogin", "Login_Elements.csv")] ∧
    countFile "Login_Elements.csv"
      (runResolves (fun _ => none) (CMState.mk [] [])
        [("txtUsername", "Login_Elements.csv"), ("btnLogin", "Login_Elements.csv")]).2 = 1 :=
  ⟨by decide, by decide,
    (C5_load_once (fun _ => none) (CMState.mk [] [])
      [("txtUsername", "Login_Elements.csv"), ("btnLogin", "Login_Elements.csv")]
      "Login_Elements.csv").2 (by decide) "txtUsername" (by decide)⟩

/-- Claim C9, counterexample: a persisted file whose second row is missing
its selector field makes `_load_csv` abort row parsing, returning the
(non-empty) partial mapping: it is neither the empty mapping promised for
a malformed file nor the mapping of all well-formed rows (`k3` is lost). -/
theorem C9_counterexample :
    load_csv (fun n => if n = "f.csv" then
        some [(some "k1", some "v1"), (some "k2", none), (some "k3", some "v3")] else none)
      "f.csv" = [("k1", some "v1")] ∧
    load_csv (fun n => if n = "f.csv" then
        some [(some "k1", some "v1"), (some "k2", none), (some "k3", some "v3")] else none)
      "f.csv" ≠ [] ∧
    dget (load_csv (fun n => if n = "f.csv" then
        some [(some "k1", some "v1"), (some "k2", none), (some "k3", some "v3")] else none)
      "f.csv") "k3" = none := by
  refine ⟨by decide, by decide, by decide⟩

/-- Claim C9, amended: a missing file loads as the empty mapping without
raising; an existing file loads as the mapping of the rows *preceding the
first row with a missing field* whose key and selector are non-empty
after trimming (a missing-field row aborts parsing, keeping what was
already parsed). -/
theorem C9_amended_load :
    (∀ (fs : FS) (fileName : String), fs fileName = none →
      load_csv fs fileName = []) ∧
    (∀ (fs : FS) (fileName : String) (rows : List Row), fs fileName = some rows →
      load_csv fs fileName
        = dupdate [] ((rows.takeWhile rowPresent).filterMap parseRow)) := by
  constructor
  · intro fs fileName h
    unfold load_csv
    rw [h]
  · intro fs fileName rows h
    unfold load_csv
    rw [h]
    exact loadCsvRows_characterization rows []

/-- Claim C9, witness for the amended theorem on a concrete repository. -/
theorem C9_amended_load_witness :
    ((fun n => if n = "f.csv" then some [(some " k ", some " v "), (some "", some "x")]
        else none) : FS) "f.csv" = some [(some " k ", some " v "), (some "", some "x")] ∧
    load_csv (fun n => if n = "f.csv" then
        some [(some " k ", some " v "), (some "", some "x")] else none) "f.csv"
      = dupdate [] (([(some " k ", some " v "), (some "", some "x")].takeWhile
          rowPresent).filterMap parseRow) :=
  ⟨by decide, C9_amended_load.2
    (fun n => if n = "f.csv" then some [(some " k ", some " v "), (some "", some "x")]
      else none) "f.csv" [(some " k ", some " v "), (some "", some "x")] (by decide)⟩

end HybridFramework

namespace HybridFramework

/-- Reduction of `verify_and_get_locators_using_ai` to the repair path
when the resolved selector is truthy and `wait_for_selector` fails. -/
theorem verify_wait_fail (w : AIWorld) (s : CMState) (fs : FS)
    (element fileName loc : String)
    (hlook : (get_values_from_csv s fs element fileName).1 = some loc)
    (hne : loc ≠ "")
    (hwait : w.page.waitOk loc = false) :
    verify_and_get_locators_using_ai w s fs element fileName
      = healLocator w (get_values_from_csv s fs element fileName).2.1 fs
          element fileName loc := by
  simp only [verify_and_get_locators_using_ai]
  rw [hlook]
  simp [pyFalsyStr, hne, pyStr, hwait]

/-- One-step reduction of the retry loop when the first create call
returns a response with content. -/
theorem callLoop_first_choices (att : Nat → CallOutcome) (c : String)
    (h : att 0 = CallOutcome.choices c) :
    ∀ r, r ≠ 0 → callLoop att [] 0 r = (Except.ok (pstrip c), 1, []) := by
  intro r hr
  cases r with
  | zero => exact absurd rfl hr
  | succ rem => simp [callLoop, h]

/-- Claim C6: a key the resolver cannot find makes
`verify_and_get_locators_using_ai` return absent at once: no probe, no
language-model call, no storage mutation. -/
theorem C6_absent_no_ai (w : AIWorld) (s : CMState) (fs : FS) (element fileName : String)
    (h : (get_values_from_csv s fs element fileName).1 = none) :
    (verify_and_get_locators_using_ai w s fs element fileName).result = none ∧
    (verify_and_get_locators_using_ai w s fs element fileName).fs = fs ∧
    (verify_and_get_locators_using_ai w s fs element fileName).probed = false ∧
    (verify_and_get_locators_using_ai w s fs element fileName).lmAttempts = 0 ∧
    (verify_and_get_locators_using_ai w s fs element fileName).wrote = false := by
  simp only [verify_and_get_locators_using_ai]
  rw [h]
  simp [pyFalsyStr]

/-- Claim C6, witness on an empty repository. -/
theorem C6_absent_no_ai_witness :
    (get_values_from_csv (CMState.mk [] []) (fun _ => none) "x" "f.csv").1 = none ∧
    (verify_and_get_locators_using_ai
      (AIWorld.mk (PageModel.mk (fun _ => true) (fun _ => Except.ok true) "dom")
        (fun _ _ => CallOutcome.noChoices))
      (CMState.mk [] []) (fun _ => none) "x" "f.csv").result = none :=
  ⟨by decide,
    (C6_absent_no_ai
      (AIWorld.mk (PageModel.mk (fun _ => true) (fun _ => Except.ok true) "dom")
        (fun _ _ => CallOutcome.noChoices))
      (CMState.mk [] []) (fun _ => none) "x" "f.csv" (by decide)).1⟩

/-- Claim C7: a resolved selector that is waited for successfully and
confirmed visible is returned unchanged, with no language-model call and
no storage mutation. -/
theorem C7_probe_success (w : AIWorld) (s : CMState) (fs : FS)
    (element fileName loc : String)
    (hlook : (get_values_from_csv s fs element fileName).1 = some loc)
    (hne : loc ≠ "")
    (hwait : w.page.waitOk loc = true)
    (hvis : w.page.visible loc = Except.ok true) :
    (verify_and_get_locators_using_ai w s fs element fileName).result = some loc ∧
    (verify_and_get_locators_using_ai w s fs element fileName).fs = fs ∧
    (verify_and_get_locators_using_ai w s fs element fileName).lmAttempts = 0 ∧
    (verify_and_get_locators_using_ai w s fs element fileName).wrote = false := by
  simp only [verify_and_get_locators_using_ai]
  rw [hlook]
  simp [pyFalsyStr, hne, pyStr, hwait, hvis]

/-- Claim C7, witness on a one-entry repository with a visible selector. -/
theorem C7_probe_success_witness :
    (get_values_from_csv (CMState.mk [] [])
      (fun n => if n = "f.csv" then some [(some "k", some "#v")] else none)
      "k" "f.csv").1 = some "#v" ∧
    (verify_and_get_locators_using_ai
      (AIWorld.mk (PageModel.mk (fun _ => true) (fun _ => Except.ok true) "dom")
        (fun _ _ => CallOutcome.noChoices))
      (CMState.mk [] [])
      (fun n => if n = "f.csv" then some [(some "k", some "#v")] else none)
      "k" "f.csv").result = some "#v" :=
  ⟨by decide,
    (C7_probe_success
      (AIWorld.mk (PageModel.mk (fun _ => true) (fun _ => Except.ok true) "dom")
        (fun _ _ => CallOutcome.noChoices))
      (CMState.mk [] [])
      (fun n => if n = "f.csv" then some [(some "k", some "#v")] else none)
      "k" "f.csv" "#v" (by decide) (by decide) rfl rfl).1⟩

/-- Claim C10: when the wait succeeds but the visibility check returns
false without raising, the resolver returns absent without entering the
repair path: no language-model call, no storage mutation, though the
probe did run. -/
theorem C10_invisible_no_heal (w : AIWorld) (s : CMState) (fs : FS)
    (element fileName loc : String)
    (hlook : (get_values_from_csv s fs element fileName).1 = some loc)
    (hne : loc ≠ "")
    (hwait : w.page.waitOk loc = true)
    (hvis : w.page.visible loc = Except.ok false) :
    (verify_and_get_locators_using_ai w s fs element fileName).result = none ∧
    (verify_and_get_locators_using_ai w s fs element fileName).fs = fs ∧
    (verify_and_get_locators_using_ai w s fs element fileName).probed = true ∧
    (verify_and_get_locators_using_ai w s fs element fileName).lmAttempts = 0 ∧
    (verify_and_get_locators_using_ai w s fs element fileName).wrote = false := by
  simp only [verify_and_get_locators_using_ai]
  rw [hlook]
  simp [pyFalsyStr, hne, pyStr, hwait, hvis]

/-- Claim C10, witness: selector present but reported not visible. -/
theorem C10_invisible_no_heal_witness :
    (get_values_from_csv (CMState.mk [] [])
      (fun n => if n = "f.csv" then some [(some "k", some "#v")] else none)
      "k" "f.csv").1 = some "#v" ∧
    (verify_and_get_locators_using_ai
      (AIWorld.mk (PageModel.mk (fun _ => true) (fun _ => Except.ok false) "dom")
        (fun _ _ => CallOutcome.noChoices))
      (CMState.mk [] [])
      (fun n => if n = "f.csv" then some [(some "k", some "#v")] else none)
      "k" "f.csv").result = none :=
  ⟨by decide,
    (C10_invisible_no_heal
      (AIWorld.mk (PageModel.mk (fun _ => true) (fun _ => Except.ok false) "dom")
        (fun _ _ => CallOutcome.noChoices))
      (CMState.mk [] [])
      (fun n => if n = "f.csv" then some [(some "k", some "#v")] else none)
      "k" "f.csv" "#v" (by decide) (by decide) rfl rfl).1⟩

end HybridFramework

namespace HybridFramework

/-- Claim C8: the language-model create call is attempted at most 3 times
with every inter-attempt delay fixed at 2 seconds; and when all 3 attempts
raise, the resolver returns absent with the persisted repository
untouched, after exactly 3 attempts. -/
theorem C8_retry_policy :
    (∀ (att : String → Nat → CallOutcome) (prompt : String),
      (generate_response_new att prompt).2.1 ≤ 3 ∧
      ∀ d ∈ (generate_response_new att prompt).2.2, d = 2) ∧
    (∀ (w : AIWorld) (s : CMState) (fs : FS) (element fileName loc : String),
      (get_values_from_csv s fs element fileName).1 = some loc → loc ≠ "" →
      w.page.waitOk loc = false →
      (∀ p i, w.attempts p i = CallOutcome.raiseExc) →
      (verify_and_get_locators_using_ai w s fs element fileName).result = none ∧
      (verify_and_get_locators_using_ai w s fs element fileName).fs = fs ∧
      (verify_and_get_locators_using_ai w s fs element fileName).wrote = false ∧
      (verify_and_get_locators_using_ai w s fs element fileName).lmAttempts = 3) := by
  constructor
  · intro att prompt
    constructor
    · have h := callLoop_attempts_le (att prompt) 3 [] 0
      rw [generate_response_new_snd]
      simpa [call_openai_with_retries] using h
    · intro d hd
      have h := callLoop_sleeps_two (att prompt) 3 [] 0 (by simp)
      rw [generate_response_new_snd] at hd
      exact h d (by simpa [call_openai_with_retries] using hd)
  · intro w s fs element fileName loc hlook hne hwait hatt
    rw [verify_wait_fail w s fs element fileName loc hlook hne hwait]
    simp only [healLocator]
    rw [generate_response_new_raise_all w.attempts _ (fun i => hatt _ i)]
    simp

/-- Claim C8, witness: a concrete world whose service raises on every
attempt. -/
theorem C8_retry_policy_witness :
    (get_values_from_csv (CMState.mk [] [])
      (fun n => if n = "f.csv" then some [(some "k", some "#v")] else none)
      "k" "f.csv").1 = some "#v" ∧
    (verify_and_get_locators_using_ai
      (AIWorld.mk (PageModel.mk (fun _ => false) (fun _ => Except.ok false) "dom")
        (fun _ _ => CallOutcome.raiseExc))
      (CMState.mk [] [])
      (fun n => if n = "f.csv" then some [(some "k", some "#v")] else none)
      "k" "f.csv").result = none ∧
    (verify_and_get_locators_using_ai
      (AIWorld.mk (PageModel.mk (fun _ => false) (fun _ => Except.ok false) "dom")
        (fun _ _ => CallOutcome.raiseExc))
      (CMState.mk [] [])
      (fun n => if n = "f.csv" then some [(some "k", some "#v")] else none)
      "k" "f.csv").lmAttempts = 3 := by
  have h := C8_retry_policy.2
    (AIWorld.mk (PageModel.mk (fun _ => false) (fun _ => Except.ok false) "dom")
      (fun _ _ => CallOutcome.raiseExc))
    (CMState.mk [] [])
    (fun n => if n = "f.csv" then some [(some "k", some "#v")] else none)
    "k" "f.csv" "#v" (by decide) (by decide) rfl (fun p i => rfl)
  exact ⟨by decide, h.1, h.2.2.2⟩

/-- Claim C4: a failed probe followed by the language-model response
`c4response` (the text: Use locator = , followed by `loginLocator` in
double quotes, where `loginLocator` is the div XPath whose id equals
login, the id being single-quoted) makes the resolver extract the first
double-quoted substring — exactly `loginLocator` — persist it for the key
via `update_locator`, and return it. -/
theorem C4_extract_persist_return (w : AIWorld) (s : CMState) (fs : FS)
    (element fileName loc : String)
    (hlook : (get_values_from_csv s fs element fileName).1 = some loc)
    (hne : loc ≠ "")
    (hwait : w.page.waitOk loc = false)
    (hatt : ∀ p, w.attempts p 0 = CallOutcome.choices c4response) :
    (verify_and_get_locators_using_ai w s fs element fileName).result
      = some loginLocator ∧
    (verify_and_get_locators_using_ai w s fs element fileName).fs
      = (update_locator (get_values_from_csv s fs element fileName).2.1 fs element
          (some loginLocator) fileName).2 ∧
    (verify_and_get_locators_using_ai w s fs element fileName).wrote = true := by
  rw [verify_wait_fail w s fs element fileName loc hlook hne hwait]
  simp only [healLocator]
  have hgen : generate_response_new w.attempts (buildPrompt loc w.page.content)
      = (some c4response, 1, []) := by
    unfold generate_response_new call_openai_with_retries
    rw [callLoop_first_choices _ _ (hatt _) 3 (by omega)]
    have hps : pstrip c4response = c4response := by decide
    rw [hps]
  rw [hgen]
  have hne2 : c4response ≠ "" := by decide
  have hex : extract_xpath_from_response c4response = some loginLocator := by decide
  simp [hne2, hex]

/-- Claim C4, witness on a concrete repository and world. -/
theorem C4_extract_persist_return_witness :
    (get_values_from_csv (CMState.mk [] [])
      (fun n => if n = "f.csv" then some [(some "k", some "#v")] else none)
      "k" "f.csv").1 = some "#v" ∧
    (verify_and_get_locators_using_ai
      (AIWorld.mk (PageModel.mk (fun _ => false) (fun _ => Except.ok false) "dom")
        (fun _ _ => CallOutcome.choices c4response))
      (CMState.mk [] [])
      (fun n => if n = "f.csv" then some [(some "k", some "#v")] else none)
      "k" "f.csv").result = some loginLocator ∧
    (verify_and_get_locators_using_ai
      (AIWorld.mk (PageModel.mk (fun _ => false) (fun _ => Except.ok false) "dom")
        (fun _ _ => CallOutcome.choices c4response))
      (CMState.mk [] [])
      (fun n => if n = "f.csv" then some [(some "k", some "#v")] else none)
      "k" "f.csv").wrote = true := by
  have h := C4_extract_persist_return
    (AIWorld.mk (PageModel.mk (fun _ => false) (fun _ => Except.ok false) "dom")
      (fun _ _ => CallOutcome.choices c4response))
    (CMState.mk [] [])
    (fun n => if n = "f.csv" then some [(some "k", some "#v")] else none)
    "k" "f.csv" "#v" (by decide) (by decide) rfl (fun p => rfl)
  exact ⟨by decide, h.1, h.2.2⟩

/-- Claim C1, evaluated at the failing input: the probe for the persisted
selector `#old` fails and the language model answers with text containing
no double-quoted substring.  The resolver does return absent, but it
still calls `update_locator` with the failed (None) extraction, so the
persisted row for `btn_Login` changes from `#old` to an empty selector
instead of being left unchanged. -/
theorem C1_failed_extraction_still_writes :
    (verify_and_get_locators_using_ai
      (AIWorld.mk (PageModel.mk (fun _ => false) (fun _ => Except.ok false) "dom")
        (fun _ _ => CallOutcome.choices "locator = no quotes here"))
      (CMState.mk [] [])
      (fun n => if n = "login.csv" then some [(some "btn_Login", some "#old")] else none)
      "btn_Login" "login.csv").result = none ∧
    extract_xpath_from_response "locator = no quotes here" = none ∧
    (verify_and_get_locators_using_ai
      (AIWorld.mk (PageModel.mk (fun _ => false) (fun _ => Except.ok false) "dom")
        (fun _ _ => CallOutcome.choices "locator = no quotes here"))
      (CMState.mk [] [])
      (fun n => if n = "login.csv" then some [(some "btn_Login", some "#old")] else none)
      "btn_Login" "login.csv").wrote = true ∧
    (fun n => if n = "login.csv" then some [(some "btn_Login", some "#old")] else none : FS)
      "login.csv" = some [(some "btn_Login", some "#old")] ∧
    (verify_and_get_locators_using_ai
      (AIWorld.mk (PageModel.mk (fun _ => false) (fun _ => Except.ok false) "dom")
        (fun _ _ => CallOutcome.choices "locator = no quotes here"))
      (CMState.mk [] [])
      (fun n => if n = "login.csv" then some [(some "btn_Login", some "#old")] else none)
      "btn_Login" "login.csv").fs "login.csv"
      = some [(some "btn_Login", some "")] := by
  refine ⟨by decide, by decide, by decide, by decide, by decide⟩

end HybridFramework
